import Mathlib

/-!
Verification of the spl-token-2022 transfer-hook Anchor program
(programs/transferhook/src/lib.rs) against its natural-language
specification.

The program is shallowly embedded: the handler bodies (`initialize`,
`transfer_hook`, `initialize_extra_account_meta_list`, `fallback`) are
translated from the Rust source; the external collaborators that the source
only calls into (the token-2022 account unpacking, the
spl-transfer-hook-interface instruction codec, the tlv-account-resolution
list codec, the derived-address resolver, and the Anchor account-creation
gate) are modelled from the specification's interface sections, as marked on
each definition.
-/

namespace TransferHookProgram

/-- A byte, as stored in Solana account data buffers. -/
abbrev Byte := Fin 256

/-- The `u64` modulus: counter counts and transfer amounts are 64-bit. -/
def U64_MOD : Nat := 2 ^ 64

/-- A 32-byte public key (`Pubkey` in the source), kept as its byte list. -/
structure Pubkey where
  bytes : List Byte
deriving DecidableEq, Repr

/-- The error kinds the program's operations can surface (spec section 7),
together with the generic runtime errors the source propagates from its
external collaborators. -/
inductive ProgramError where
  | invalidInstructionData
  | programCalledOutsideOfTransfer
  | alreadyInitialized
  | sizeOverflow
  | invalidAccountData
  | invalidArgument
deriving DecidableEq, Repr

/-- Modelled from the spec: `TokenAccountExtensionState` (spec section 3), the
externally owned byte buffer read by `check_token_account_is_transferring`.
The external crate's `StateWithExtensions::<Token2022Account>::unpack`
followed by `get_extension::<TransferHookAccount>` either fails (the buffer
does not parse as a token-2022 account carrying the extension; the error is
propagated) or exposes the boolean `transferring` flag. -/
inductive TokenAccountView where
  | invalid (e : ProgramError)
  | valid (transferring : Bool)
deriving DecidableEq, Repr

/-- Embedding of `check_token_account_is_transferring` (lib.rs lines 17-27):
propagate any unpack / missing-extension error; otherwise succeed exactly
when the `transferring` flag is true, failing with
`ProgramCalledOutsideOfTransfer` when it is false. -/
def check_token_account_is_transferring :
    TokenAccountView → Except ProgramError Unit
  | .invalid e => .error e
  | .valid transferring =>
      if transferring then .ok ()
      else .error .programCalledOutsideOfTransfer

/-- The `Counter` account (lib.rs lines 170-174): a 32-byte owner key and a
`u64` count.  The count is kept as a `Nat` below `U64_MOD`; the increment in
`transfer_hook` reduces modulo `U64_MOD` (64-bit wrap-around, the behaviour
the spec's section 9 asks to preserve). -/
structure Counter where
  owner : Pubkey
  count : Nat
deriving DecidableEq, Repr

/-- The accounts handed to `transfer_hook` (the `TransferHook` accounts
struct, lib.rs lines 132-151), after Anchor's deserialization: the source and
destination token accounts are the views read by the flag check, the rest are
opaque keys plus the deserialized counter. -/
structure TransferHookAccounts where
  source : TokenAccountView
  mint : Pubkey
  destination : TokenAccountView
  authority : Pubkey
  extra_account : Pubkey
  counter : Counter
deriving DecidableEq, Repr

/-- Embedding of the `transfer_hook` handler (lib.rs lines 51-67): increment
the counter (64-bit wrap), then require both the source and the destination
account to be mid-transfer; the `amount` argument is only logged, never
examined.  Returns the updated counter on success. -/
def transfer_hook (ctx : TransferHookAccounts) (amount : Nat) :
    Except ProgramError Counter :=
  let counter : Counter :=
    { ctx.counter with count := (ctx.counter.count + 1) % U64_MOD }
  match check_token_account_is_transferring ctx.source with
  | .error e => .error e
  | .ok _ =>
    match check_token_account_is_transferring ctx.destination with
    | .error e => .error e
    | .ok _ =>
      let _ := amount
      .ok counter

/-- The externally observable effect of one `transfer_hook` transaction.
The `counter` field of the `TransferHook` accounts struct (lib.rs line 150)
carries no `mut` attribute, so Anchor's generated exit code never serializes
the deserialized `Counter` copy back into the account data: on success the
in-call increment is discarded at exit, and on failure the atomic
transaction (spec section 5) discards every write anyway.  Either way the
persistent account set is unchanged. -/
def transfer_hook_tx (ctx : TransferHookAccounts) (amount : Nat) :
    TransferHookAccounts :=
  match transfer_hook ctx amount with
  | .ok _ => ctx
  | .error _ => ctx

/-- `n` successive `transfer_hook` transactions from the same account set. -/
def transfer_hook_iter (ctx : TransferHookAccounts) : Nat → TransferHookAccounts
  | 0 => ctx
  | n + 1 => transfer_hook_tx (transfer_hook_iter ctx n) 0

/-- Little-endian byte decoding, as in `u64::from_le_bytes`. -/
def fromLEBytes : List Byte → Nat
  | [] => 0
  | b :: rest => b.val + 256 * fromLEBytes rest

/-- Little-endian byte encoding to a fixed width, as in `u64::to_le_bytes`
(lib.rs line 110) for width 8. -/
def toLEBytes : Nat → Nat → List Byte
  | 0, _ => []
  | k + 1, n => ⟨n % 256, Nat.mod_lt n (by omega)⟩ :: toLEBytes k (n / 256)

/-- Modelled from the spec: the external
`spl_transfer_hook_interface::instruction::TransferHookInstruction` type
(spec sections 4.1 and 6): the instruction space of the foreign interface,
of which only `Execute` (carrying a 64-bit amount) is handled by this
program's router. -/
inductive TransferHookInstruction where
  | execute (amount : Nat)
  | initializeExtraAccountMetaListIx
  | updateExtraAccountMetaListIx
deriving DecidableEq, Repr

/-- The 8-byte discriminator tag selecting the `Execute` opcode. -/
def executeTag : List Byte := [105, 37, 101, 197, 75, 251, 102, 26]

/-- The 8-byte tag selecting the interface's initialize-meta-list opcode. -/
def initializeMetaListTag : List Byte := [43, 34, 13, 49, 167, 88, 235, 235]

/-- The 8-byte tag selecting the interface's update-meta-list opcode. -/
def updateMetaListTag : List Byte := [29, 119, 47, 66, 184, 84, 224, 45]

/-- Modelled from the spec: `TransferHookInstruction::unpack` (spec section
6: an opaque buffer whose first bytes select an opcode; `Execute` carries an
8-byte little-endian unsigned amount).  Any buffer that does not start with a
known 8-byte tag followed by that tag's payload is rejected with
`InvalidInstructionData`; this covers the empty and malformed buffers. -/
def TransferHookInstruction.unpack (data : List Byte) :
    Except ProgramError TransferHookInstruction :=
  if data.take 8 = executeTag then
    if (data.drop 8).length = 8 then .ok (.execute (fromLEBytes (data.drop 8)))
    else .error .invalidInstructionData
  else if data.take 8 = initializeMetaListTag then
    .ok .initializeExtraAccountMetaListIx
  else if data.take 8 = updateMetaListTag then
    .ok .updateExtraAccountMetaListIx
  else .error .invalidInstructionData

/-- Embedding of the `fallback` entry point (lib.rs lines 106-115): unpack
the raw buffer; on `Execute` re-encode the amount as 8 little-endian bytes
and invoke the `transfer_hook` handler with them (Anchor's generated
`__global::transfer_hook` then decodes the `u64` argument from that buffer,
modelled by `fromLEBytes`); every other unpack outcome fails with
`InvalidInstructionData`. -/
def fallback (ctx : TransferHookAccounts) (data : List Byte) :
    Except ProgramError Counter :=
  match TransferHookInstruction.unpack data with
  | .ok (.execute amount) =>
      let amountBytes := toLEBytes 8 amount
      transfer_hook ctx (fromLEBytes amountBytes)
  | .ok _ => .error .invalidInstructionData
  | .error e => .error e

/-- Embedding of the `initialize` handler (lib.rs lines 44-49) together with
the account-creation gate of its accounts struct (lib.rs lines 118-130).
The gate is modelled from the spec (sections 4.5 and 7): the `init`
constraint creates the counter slot and fails with `AlreadyInitialized` when
the slot is already occupied.  On a fresh slot the handler sets
`owner = authority` and `count = 0`. -/
def initialize_counter (authority : Pubkey) (slot : Option Counter) :
    Except ProgramError (Option Counter) :=
  match slot with
  | some _ => .error .alreadyInitialized
  | none => .ok (some { owner := authority, count := 0 })

/-- The externally observable effect of one `initialize` transaction:
atomic, so a failed initialization leaves the slot unchanged. -/
def initialize_counter_tx (authority : Pubkey) (slot : Option Counter) :
    Option Counter :=
  match initialize_counter authority slot with
  | .ok s => s
  | .error _ => slot

/-- One auxiliary-account descriptor
(`spl_tlv_account_resolution::account::ExtraAccountMeta`, spec section 3):
a one-byte discriminator, a 32-byte `address_config` (kept as a byte list of
length 32, the width of the Rust `[u8; 32]`), and two booleans. -/
structure ExtraAccountMeta where
  discriminator : Byte
  address_config : List Byte
  is_signer : Bool
  is_writable : Bool
deriving DecidableEq, Repr

/-- A `PodBool` byte: 1 for true, 0 for false. -/
def podBoolByte (b : Bool) : Byte := if b then 1 else 0

/-- Modelled from the spec: the Account-Meta Codec's fixed-width record for
one entry (spec section 6): discriminator, 32-byte address_config, 1-byte
is_signer, 1-byte is_writable. -/
def encodeEntry (e : ExtraAccountMeta) : List Byte :=
  e.discriminator :: e.address_config
    ++ [podBoolByte e.is_signer, podBoolByte e.is_writable]

/-- Modelled from the spec: the Account-Meta Codec's whole-list layout (spec
section 6): a count header (4 little-endian bytes) followed by one
fixed-width record per entry. -/
def encodeMetaList (l : List ExtraAccountMeta) : List Byte :=
  toLEBytes 4 l.length ++ (l.map encodeEntry).flatten

/-- Modelled from the spec: decoding one fixed-width entry record, returning
the entry and the remaining bytes; fails if fewer than 35 bytes remain. -/
def decodeEntry (bs : List Byte) : Option (ExtraAccountMeta × List Byte) :=
  match bs with
  | d :: rest =>
    if rest.length < 34 then none
    else
      match rest.drop 32 with
      | s :: w :: rest2 =>
          some (⟨d, rest.take 32, s ≠ 0, w ≠ 0⟩, rest2)
      | _ => none
  | [] => none

/-- Modelled from the spec: decoding a run of exactly `n` entry records that
must consume the whole buffer. -/
def decodeEntries : Nat → List Byte → Option (List ExtraAccountMeta)
  | 0, [] => some []
  | 0, _ :: _ => none
  | n + 1, bs =>
    match decodeEntry bs with
    | none => none
    | some (e, rest) =>
      match decodeEntries n rest with
      | none => none
      | some es => some (e :: es)

/-- Modelled from the spec: the Account-Meta Codec's decoder, inverse of
`encodeMetaList`: read the 4-byte count header, then that many fixed-width
records, consuming the buffer exactly. -/
def decodeMetaList (bs : List Byte) : Option (List ExtraAccountMeta) :=
  if bs.length < 4 then none
  else decodeEntries (fromLEBytes (bs.take 4)) (bs.drop 4)

/-- Modelled from the spec: `ExtraAccountMetaList::size_of` (spec section
4.4): the required buffer size is a function of the entry count alone, and
the size computation rejects overflow (`SizeOverflow`). -/
def metaListSizeOf (count : Nat) : Except ProgramError Nat :=
  let sz := 4 + count * 35
  if sz < U64_MOD then .ok sz else .error .sizeOverflow

/-- Modelled from the spec: the Derived-Address Resolver (spec section 4.3):
a pure, deterministic function from a seed tuple and a bump byte to an
address.  The concrete mixing function stands in for the external hash; only
its purity and determinism are contractual. -/
def derive (seeds : List (List Byte)) (bump : Byte) : Pubkey :=
  let h := seeds.foldl
    (fun acc s => s.foldl (fun a b => (a * 257 + b.val + 1) % 2 ^ 248) (acc + 3))
    5
  ⟨toLEBytes 32 (h * 256 + bump.val)⟩

/-- The fixed seed tag `b"extra-account-metas"` (lib.rs lines 145 and 157). -/
def extraAccountMetasSeed : List Byte :=
  [101, 120, 116, 114, 97, 45, 97, 99, 99, 111, 117, 110, 116, 45,
   109, 101, 116, 97, 115]

/-- The Counter slot address: derived from the seed tuple holding just the
authority's key (the `Initialize` accounts struct, lib.rs lines 118-130). -/
def counterSlotAddress (authority : Pubkey) (bump : Byte) : Pubkey :=
  derive [authority.bytes] bump

/-- The extra-account-metas slot address: derived from the fixed tag and the
mint's key (lib.rs lines 143-148 and 155-159). -/
def extraAccountSlotAddress (mint : Pubkey) (bump : Byte) : Pubkey :=
  derive [extraAccountMetasSeed, mint.bytes] bump

/-- Embedding of the `initialize_extra_account_meta_list` handler (lib.rs
lines 72-103).  The handler builds the one-entry list (discriminator 0,
`address_config` = the counter's key, not a signer, writable), computes the
required size, allocates and assigns the slot under the derived-address
capability, and encodes the list into the fresh buffer.  The allocation gate
is modelled from the spec (sections 4.4 and 7): the capability only works
when the target key matches the address derived from the tag, the mint and
the supplied bump, and allocating an already-occupied slot fails with
`AlreadyInitialized`.  Returns the bytes written to the slot. -/
def initialize_extra_account_meta_list (counterKey mintKey extraKey : Pubkey)
    (bump_seed : Byte) (slot : Option (List Byte)) :
    Except ProgramError (List Byte) :=
  let account_metas : List ExtraAccountMeta :=
    [{ discriminator := 0
       address_config := counterKey.bytes
       is_signer := false
       is_writable := true }]
  if extraKey ≠ extraAccountSlotAddress mintKey bump_seed then
    .error .invalidArgument
  else
    match slot with
    | some _ => .error .alreadyInitialized
    | none =>
      match metaListSizeOf account_metas.length with
      | .error e => .error e
      | .ok _ => .ok (encodeMetaList account_metas)

/-- One invocation of any of the three exposed operations, with the
arguments the caller controls. -/
inductive Operation where
  | initOp (authority : Pubkey)
  | hookOp (source : TokenAccountView) (mint : Pubkey)
      (destination : TokenAccountView) (authority extraKey : Pubkey)
      (amount : Nat)
  | metaOp (counterKey mintKey extraKey : Pubkey) (bump : Byte)
deriving Repr

/-- The program's persistent state: the counter slot and the
extra-account-metas slot (spec section 3). -/
structure World where
  counter : Option Counter
  metaSlot : Option (List Byte)
deriving DecidableEq, Repr

/-- One atomic transaction applying an operation to the persistent state:
a failing operation leaves the state unchanged (spec section 5); a `hookOp`
against an absent counter slot fails during Anchor's account
deserialization; a successful `hookOp` also leaves the state unchanged,
because the `TransferHook` struct's counter is not marked `mut`
(lib.rs line 150) and its in-call increment is dropped at exit. -/
def applyOp (w : World) : Operation → World
  | .initOp a =>
    match initialize_counter a w.counter with
    | .ok s => { w with counter := s }
    | .error _ => w
  | .hookOp src mint dst auth extra amount =>
    match w.counter with
    | none => w
    | some c =>
      match transfer_hook ⟨src, mint, dst, auth, extra, c⟩ amount with
      | .ok _ => w
      | .error _ => w
  | .metaOp ck mk ek bump =>
    match initialize_extra_account_meta_list ck mk ek bump w.metaSlot with
    | .ok bs => { w with metaSlot := some bs }
    | .error _ => w

/-- A concrete 32-byte key used by the concrete witnesses below. -/
def demoKey : Pubkey := ⟨List.replicate 32 0⟩

/-- A concrete account set in which both participants are mid-transfer and
the counter starts at zero. -/
def demoCtx : TransferHookAccounts :=
  { source := .valid true
    mint := demoKey
    destination := .valid true
    authority := demoKey
    extra_account := demoKey
    counter := { owner := demoKey, count := 0 } }

/-- A concrete account set whose source is not mid-transfer. -/
def demoCtxNotTransferring : TransferHookAccounts :=
  { demoCtx with source := .valid false }

/-- A concrete account set whose source buffer does not parse. -/
def demoCtxUnparsable : TransferHookAccounts :=
  { demoCtx with source := .invalid .invalidAccountData }

/-- A concrete 32-byte key standing for a counter account's address. -/
def demoCounterKey : Pubkey := ⟨List.replicate 32 2⟩

/-- A concrete 32-byte key standing for a mint's address. -/
def demoMintKey : Pubkey := ⟨List.replicate 32 3⟩

/-- A concrete hook invocation with both participants mid-transfer. -/
def demoHookOp : Operation :=
  .hookOp (.valid true) demoKey (.valid true) demoKey demoKey 1

section Lemmas

/-- When both participant accounts are mid-transfer, `transfer_hook`
succeeds and returns the counter incremented modulo `2 ^ 64`. -/
theorem transfer_hook_ok (ctx : TransferHookAccounts) (amount : Nat)
    (hs : ctx.source = .valid true) (hd : ctx.destination = .valid true) :
    transfer_hook ctx amount =
      .ok { ctx.counter with count := (ctx.counter.count + 1) % U64_MOD } := by
  unfold transfer_hook check_token_account_is_transferring
  rw [hs, hd]
  simp

/-- A `transfer_hook` transaction never changes the persistent account set:
the only written field, the counter's count, lives in a copy that Anchor
does not serialize back, the counter not being marked `mut`. -/
theorem transfer_hook_tx_eq (ctx : TransferHookAccounts) (amount : Nat) :
    transfer_hook_tx ctx amount = ctx := by
  unfold transfer_hook_tx
  cases transfer_hook ctx amount <;> rfl

/-- Iterating `transfer_hook` transactions changes nothing: in particular
the persistent count stays at its initial value for every `n`. -/
theorem transfer_hook_iter_eq (ctx : TransferHookAccounts) (n : Nat) :
    transfer_hook_iter ctx n = ctx := by
  induction n with
  | zero => rfl
  | succ n ih => rw [transfer_hook_iter, ih, transfer_hook_tx_eq]

/-- `toLEBytes` yields exactly the requested width. -/
theorem toLEBytes_length (k n : Nat) : (toLEBytes k n).length = k := by
  induction k generalizing n with
  | zero => rfl
  | succ k ih => simp [toLEBytes, ih]

/-- Little-endian round-trip for values within the width. -/
theorem fromLEBytes_toLEBytes (k n : Nat) (h : n < 256 ^ k) :
    fromLEBytes (toLEBytes k n) = n := by
  induction k generalizing n with
  | zero =>
    simp only [Nat.pow_zero, Nat.lt_one_iff] at h
    simp [toLEBytes, fromLEBytes, h]
  | succ k ih =>
    have hdiv : n / 256 < 256 ^ k := by
      rw [Nat.div_lt_iff_lt_mul (by omega)]
      calc n < 256 ^ (k + 1) := h
        _ = 256 ^ k * 256 := by rw [Nat.pow_succ]
    simp [toLEBytes, fromLEBytes, ih (n / 256) hdiv, Nat.mod_add_div]

/-- A little-endian decode is bounded by the width of its buffer. -/
theorem fromLEBytes_lt (bs : List Byte) :
    fromLEBytes bs < 256 ^ bs.length := by
  induction bs with
  | nil => simp [fromLEBytes]
  | cons b rest ih =>
    have hb := b.isLt
    simp only [fromLEBytes, List.length_cons, Nat.pow_succ]
    omega

/-- Decoding an encoded entry consumes exactly its 35 bytes and restores the
entry, for entries whose `address_config` has the source's fixed width. -/
theorem decodeEntry_encodeEntry (e : ExtraAccountMeta)
    (hlen : e.address_config.length = 32) (rest : List Byte) :
    decodeEntry (encodeEntry e ++ rest) = some (e, rest) := by
  obtain ⟨d, cfg, s, w⟩ := e
  simp only [ExtraAccountMeta.address_config] at hlen
  have hsplit :
      encodeEntry ⟨d, cfg, s, w⟩ ++ rest =
        d :: (cfg ++ ([podBoolByte s, podBoolByte w] ++ rest)) := by
    simp [encodeEntry]
  rw [hsplit]
  have hlen2 : (cfg ++ podBoolByte s :: podBoolByte w :: rest).length =
      34 + rest.length := by
    simp [hlen]; omega
  have htake : (cfg ++ podBoolByte s :: podBoolByte w :: rest).take 32 = cfg :=
    List.take_left' hlen
  have hdrop : (cfg ++ podBoolByte s :: podBoolByte w :: rest).drop 32 =
      podBoolByte s :: podBoolByte w :: rest :=
    List.drop_left' hlen
  simp only [decodeEntry, hlen2, htake, hdrop, List.cons_append, List.nil_append]
  rw [if_neg (by omega : ¬ 34 + rest.length < 34)]
  simp only [Option.some.injEq, Prod.mk.injEq, ExtraAccountMeta.mk.injEq]
  refine ⟨⟨trivial, trivial, ?_, ?_⟩, trivial⟩
  · cases s <;> decide
  · cases w <;> decide

/-- Decoding a run of encoded entries restores the list. -/
theorem decodeEntries_encode (l : List ExtraAccountMeta)
    (hwf : ∀ e ∈ l, e.address_config.length = 32) :
    decodeEntries l.length (l.map encodeEntry).flatten = some l := by
  induction l with
  | nil => rfl
  | cons e l ih =>
    have he : e.address_config.length = 32 := hwf e (List.mem_cons_self e l)
    have hl : ∀ e2 ∈ l, e2.address_config.length = 32 :=
      fun e2 h2 => hwf e2 (List.mem_cons_of_mem e h2)
    simp only [List.map_cons, List.flatten_cons, List.length_cons, decodeEntries,
      decodeEntry_encodeEntry e he, ih hl]

/-- The Account-Meta Codec round-trip (spec sections 4.4 and 6): decoding an
encoded list restores the list, for lists whose entries carry the source's
32-byte `address_config` and whose length fits the 4-byte count header. -/
theorem decodeMetaList_encodeMetaList (l : List ExtraAccountMeta)
    (hwf : ∀ e ∈ l, e.address_config.length = 32)
    (hcount : l.length < 2 ^ 32) :
    decodeMetaList (encodeMetaList l) = some l := by
  unfold decodeMetaList encodeMetaList
  have hhead : (toLEBytes 4 l.length).length = 4 := toLEBytes_length 4 l.length
  have htake : (toLEBytes 4 l.length ++ (l.map encodeEntry).flatten).take 4 =
      toLEBytes 4 l.length := List.take_left' hhead
  have hdrop : (toLEBytes 4 l.length ++ (l.map encodeEntry).flatten).drop 4 =
      (l.map encodeEntry).flatten := List.drop_left' hhead
  have hlen : (toLEBytes 4 l.length ++ (l.map encodeEntry).flatten).length =
      4 + (l.map encodeEntry).flatten.length := by simp [hhead]
  rw [hlen]
  simp only [if_neg (by omega : ¬ 4 + (l.map encodeEntry).flatten.length < 4)]
  rw [htake, hdrop, fromLEBytes_toLEBytes 4 l.length (by norm_num at hcount ⊢; omega),
    decodeEntries_encode l hwf]

/-- Any successful `transfer_hook` result is the input counter with its
count advanced by one modulo `2 ^ 64`. -/
theorem transfer_hook_ok_shape (ctx : TransferHookAccounts) (amount : Nat)
    (c2 : Counter) (h : transfer_hook ctx amount = .ok c2) :
    c2 = { ctx.counter with count := (ctx.counter.count + 1) % U64_MOD } := by
  unfold transfer_hook at h
  cases hs : check_token_account_is_transferring ctx.source with
  | error e => rw [hs] at h; exact absurd h (by simp)
  | ok u =>
    rw [hs] at h
    cases hd : check_token_account_is_transferring ctx.destination with
    | error e => rw [hd] at h; exact absurd h (by simp)
    | ok v =>
      rw [hd] at h
      simp only [Except.ok.injEq] at h
      exact h.symm

/-- A successful `transfer_hook` implies both participants were
mid-transfer. -/
theorem transfer_hook_ok_flags (ctx : TransferHookAccounts) (amount : Nat)
    (c2 : Counter) (h : transfer_hook ctx amount = .ok c2) :
    ctx.source = .valid true ∧ ctx.destination = .valid true := by
  unfold transfer_hook at h
  cases hs : ctx.source with
  | invalid e => rw [hs] at h; exact absurd h (by simp [check_token_account_is_transferring])
  | valid b =>
    cases b
    · rw [hs] at h
      exact absurd h (by simp [check_token_account_is_transferring])
    · cases hd : ctx.destination with
      | invalid e =>
        rw [hs, hd] at h
        exact absurd h (by simp [check_token_account_is_transferring])
      | valid b2 =>
        cases b2
        · rw [hs, hd] at h
          exact absurd h (by simp [check_token_account_is_transferring])
        · exact ⟨rfl, rfl⟩

/-- An occupied counter slot is preserved verbatim by every operation:
`initialize` fails on it, the hook's increment is dropped at exit, and the
meta-list handler only writes the meta-list slot. -/
theorem applyOp_counter_preserved (w : World) (op : Operation) (c : Counter)
    (hw : w.counter = some c) : (applyOp w op).counter = some c := by
  cases op with
  | initOp a =>
    simp [applyOp, hw, initialize_counter]
  | hookOp src mint dst auth extra amount =>
    simp only [applyOp, hw]
    cases transfer_hook ⟨src, mint, dst, auth, extra, c⟩ amount <;> exact hw
  | metaOp ck mk ek bump =>
    simp only [applyOp]
    cases initialize_extra_account_meta_list ck mk ek bump w.metaSlot <;>
      simp [hw]

end Lemmas

/-- Claim C1 (code bug, evaluated at the failing input): with both
participants mid-transfer and the persistent count at 0, the handler
succeeds and increments only its transient copy of the counter (to 1); the
counter field of the `TransferHook` struct is not marked `mut`
(lib.rs line 150), so the transaction never writes the copy back and the
stored count is still 0 — after one invocation and after every number of
sequential invocations — where the claim expects 1 and `n`. -/
theorem transfer_hook_count_never_persists :
    transfer_hook demoCtx 5 = .ok { owner := demoKey, count := 1 } ∧
    transfer_hook_tx demoCtx 5 = demoCtx ∧
    demoCtx.counter.count = 0 ∧
    (∀ n : Nat, (transfer_hook_iter demoCtx n).counter.count = 0) ∧
    (0 : Nat) ≠ 1 := by
  refine ⟨?_, transfer_hook_tx_eq demoCtx 5, rfl, fun n => ?_, by norm_num⟩
  · rw [transfer_hook_ok demoCtx 5 rfl rfl]
    norm_num [demoCtx, U64_MOD]
  · rw [transfer_hook_iter_eq]
    rfl

/-- Claim C2: if either participant's `transferring` flag is false, the hook
fails with `ProgramCalledOutsideOfTransfer` and the atomic transaction
leaves every account, the counter included, unchanged. -/
theorem transfer_hook_rejects_outside_transfer (ctx : TransferHookAccounts)
    (amount : Nat) (s d : Bool) (hs : ctx.source = .valid s)
    (hd : ctx.destination = .valid d) (h : s = false ∨ d = false) :
    transfer_hook ctx amount = .error .programCalledOutsideOfTransfer ∧
    transfer_hook_tx ctx amount = ctx := by
  have herr : transfer_hook ctx amount =
      .error .programCalledOutsideOfTransfer := by
    rcases h with h | h
    · subst h
      simp [transfer_hook, check_token_account_is_transferring, hs]
    · subst h
      cases s <;>
        simp [transfer_hook, check_token_account_is_transferring, hs, hd]
  exact ⟨herr, by simp [transfer_hook_tx, herr]⟩

/-- Witness for C2 at a concrete account set whose source flag is false. -/
theorem transfer_hook_rejects_outside_transfer_witness :
    transfer_hook demoCtxNotTransferring 7 =
      .error .programCalledOutsideOfTransfer ∧
    transfer_hook_tx demoCtxNotTransferring 7 = demoCtxNotTransferring :=
  transfer_hook_rejects_outside_transfer demoCtxNotTransferring 7 false true
    rfl rfl (Or.inl rfl)

/-- Claim C4: initializing a fresh counter slot succeeds with
`owner = authority` and `count = 0`; initializing an occupied slot fails
with `AlreadyInitialized` and the atomic transaction leaves the occupant
unchanged. -/
theorem initialize_counter_spec (A : Pubkey) (c : Counter) :
    initialize_counter A none = .ok (some { owner := A, count := 0 }) ∧
    initialize_counter A (some c) = .error .alreadyInitialized ∧
    initialize_counter_tx A (some c) = some c :=
  ⟨rfl, rfl, rfl⟩

/-- Claim C6: two `transfer_hook` runs from the same initial state that
differ only in the amount argument have the same result and the same
resulting state — the amount never constrains the outcome. -/
theorem transfer_hook_amount_irrelevant (ctx : TransferHookAccounts)
    (a1 a2 : Nat) :
    transfer_hook ctx a1 = transfer_hook ctx a2 ∧
    transfer_hook_tx ctx a1 = transfer_hook_tx ctx a2 :=
  ⟨rfl, rfl⟩

/-- Claim C3: the fallback router invokes the hook handler, with the amount
surviving the 8-byte little-endian re-encoding intact, exactly when the
buffer unpacks to `Execute`; every other buffer — empty, malformed, or a
recognized non-`Execute` opcode — fails with `InvalidInstructionData`. -/
theorem fallback_routes_execute_only (ctx : TransferHookAccounts)
    (data : List Byte) :
    fallback ctx data =
      match TransferHookInstruction.unpack data with
      | .ok (.execute amount) => transfer_hook ctx amount
      | .ok _ => .error .invalidInstructionData
      | .error _ => .error .invalidInstructionData := by
  cases hu : TransferHookInstruction.unpack data with
  | error e =>
    have he : e = .invalidInstructionData := by
      unfold TransferHookInstruction.unpack at hu
      split_ifs at hu <;> simp_all
    subst he
    simp [fallback, hu]
  | ok i =>
    cases i with
    | execute a =>
      have ha : a < U64_MOD := by
        unfold TransferHookInstruction.unpack at hu
        split_ifs at hu with h1 h2 h3 h4
        · simp only [Except.ok.injEq, TransferHookInstruction.execute.injEq]
            at hu
          have hlt := fromLEBytes_lt (data.drop 8)
          rw [h2] at hlt
          rw [← hu]
          calc fromLEBytes (data.drop 8) < 256 ^ 8 := hlt
            _ = U64_MOD := by norm_num [U64_MOD]
        all_goals exact absurd hu (by simp)
      simp only [fallback, hu]
      rw [fromLEBytes_toLEBytes 8 a (by calc a < U64_MOD := ha
        _ = 256 ^ 8 := by norm_num [U64_MOD])]
    | initializeExtraAccountMetaListIx => simp [fallback, hu]
    | updateExtraAccountMetaListIx => simp [fallback, hu]

/-- Claim C5: with the correct bump and a fresh slot,
`initialize_extra_account_meta_list` writes, at the slot derived from the
fixed tag and the mint, a buffer that decodes to exactly one entry whose
`address_config` is the counter's address, not a signer, writable; and the
codec round-trips every well-formed list. -/
theorem extra_account_meta_list_correct (counterKey mintKey extraKey : Pubkey)
    (bump : Byte) (hk : counterKey.bytes.length = 32)
    (hb : extraKey = extraAccountSlotAddress mintKey bump) :
    (∃ bs,
      initialize_extra_account_meta_list counterKey mintKey extraKey bump
        none = .ok bs ∧
      decodeMetaList bs =
        some [{ discriminator := 0, address_config := counterKey.bytes,
                is_signer := false, is_writable := true }]) ∧
    (∀ l : List ExtraAccountMeta, (∀ e ∈ l, e.address_config.length = 32) →
      l.length < 2 ^ 32 → decodeMetaList (encodeMetaList l) = some l) := by
  constructor
  · refine ⟨encodeMetaList
      [{ discriminator := 0, address_config := counterKey.bytes,
         is_signer := false, is_writable := true }], ?_, ?_⟩
    · unfold initialize_extra_account_meta_list
      rw [if_neg (by simp [hb])]
      norm_num [metaListSizeOf, U64_MOD]
    · exact decodeMetaList_encodeMetaList _ (by simpa using hk) (by norm_num)
  · exact fun l hwf hc => decodeMetaList_encodeMetaList l hwf hc

/-- Witness for C5 at concrete counter and mint keys with the matching
derived address. -/
theorem extra_account_meta_list_correct_witness :
    ∃ bs,
      initialize_extra_account_meta_list demoCounterKey demoMintKey
        (extraAccountSlotAddress demoMintKey 5) 5 none = .ok bs ∧
      decodeMetaList bs =
        some [{ discriminator := 0, address_config := demoCounterKey.bytes,
                is_signer := false, is_writable := true }] :=
  (extra_account_meta_list_correct demoCounterKey demoMintKey
    (extraAccountSlotAddress demoMintKey 5) 5 (by simp [demoCounterKey])
    rfl).1

/-- Claim C8: the derived-address computation is a pure deterministic
function of the seed tuple and bump byte — equal seed tuples give equal
addresses — and the counter slot derives from the authority seed while the
extra-accounts slot derives from the fixed tag plus the mint seed. -/
theorem derived_address_deterministic (s1 s2 : List (List Byte))
    (b1 b2 : Byte) (a m : Pubkey) (hs : s1 = s2) (hb : b1 = b2) :
    derive s1 b1 = derive s2 b2 ∧
    counterSlotAddress a b1 = derive [a.bytes] b1 ∧
    extraAccountSlotAddress m b1 =
      derive [extraAccountMetasSeed, m.bytes] b1 := by
  subst hs
  subst hb
  exact ⟨rfl, rfl, rfl⟩

/-- Witness for C8 at concrete seed tuples. -/
theorem derived_address_deterministic_witness :
    derive [demoKey.bytes] 4 = derive [demoKey.bytes] 4 ∧
    counterSlotAddress demoKey 4 = derive [demoKey.bytes] 4 ∧
    extraAccountSlotAddress demoMintKey 4 =
      derive [extraAccountMetasSeed, demoMintKey.bytes] 4 :=
  derived_address_deterministic [demoKey.bytes] [demoKey.bytes] 4 4 demoKey
    demoMintKey rfl rfl

/-- Claim C9: a source or destination buffer that does not parse as a
token-2022 account with the transfer-hook extension makes `transfer_hook`
fail with the propagated unpack or missing-extension error; the account is
never treated as transferring or as not transferring. -/
theorem transfer_hook_propagates_parse_errors (ctx : TransferHookAccounts)
    (amount : Nat) (e : ProgramError) :
    (ctx.source = .invalid e → transfer_hook ctx amount = .error e) ∧
    (ctx.source = .valid true → ctx.destination = .invalid e →
      transfer_hook ctx amount = .error e) := by
  constructor
  · intro hs
    simp [transfer_hook, check_token_account_is_transferring, hs]
  · intro hs hd
    simp [transfer_hook, check_token_account_is_transferring, hs, hd]

/-- Witness for C9 at a concrete account set whose source buffer does not
parse. -/
theorem transfer_hook_propagates_parse_errors_witness :
    transfer_hook demoCtxUnparsable 9 = .error .invalidAccountData :=
  (transfer_hook_propagates_parse_errors demoCtxUnparsable 9
    .invalidAccountData).1 rfl

/-- Claim C7: over every occupied counter slot and every exposed operation,
the owner field is never changed and the count is monotonically
non-decreasing across successful operations — indeed, after creation the
stored counter is never modified at all, since `initialize` fails on an
occupied slot, the hook's in-call increment is dropped at exit (the counter
is not writable in the `TransferHook` struct), and the meta-list handler
only writes the meta-list slot. -/
theorem counter_owner_immutable_count_monotone (w : World) (op : Operation)
    (c c' : Counter) (hw : w.counter = some c)
    (hw' : (applyOp w op).counter = some c') :
    c'.owner = c.owner ∧ c.count ≤ c'.count := by
  have h := applyOp_counter_preserved w op c hw
  rw [h] at hw'
  simp only [Option.some.injEq] at hw'
  subst hw'
  exact ⟨rfl, le_refl _⟩

/-- Witness for C7 at a concrete successful hook step on an occupied
counter slot. -/
theorem counter_owner_immutable_count_monotone_witness :
    ({ owner := demoKey, count := 0 } : Counter).owner =
      ({ owner := demoKey, count := 0 } : Counter).owner ∧
    ({ owner := demoKey, count := 0 } : Counter).count ≤
      ({ owner := demoKey, count := 0 } : Counter).count :=
  counter_owner_immutable_count_monotone
    { counter := some { owner := demoKey, count := 0 }, metaSlot := none }
    demoHookOp { owner := demoKey, count := 0 } { owner := demoKey, count := 0 }
    rfl (by decide)

/-- Claim C10 (code bug, evaluated at a failing input): a successful
`transfer_hook` transaction mutates no persistent state at all — the
post-transaction account set equals the pre-transaction one for every input,
because the incremented counter exists only in the transient copy that
Anchor's exit never writes back (the counter is not marked `mut` in the
`TransferHook` struct); so while the source, mint, destination, authority
and extra-account slots and the counter's owner are indeed unchanged, the
claimed count mutation never becomes visible: at the concrete input the
stored count is still 0 where the claim expects it mutated to 1. -/
theorem transfer_hook_persists_no_mutation :
    (∀ (ctx : TransferHookAccounts) (amount : Nat),
      transfer_hook_tx ctx amount = ctx) ∧
    transfer_hook demoCtx 5 = .ok { owner := demoKey, count := 1 } ∧
    (transfer_hook_tx demoCtx 5).counter.count = 0 ∧
    demoCtx.counter.count = 0 := by
  refine ⟨fun ctx amount => transfer_hook_tx_eq ctx amount, ?_, ?_, rfl⟩
  · rw [transfer_hook_ok demoCtx 5 rfl rfl]
    norm_num [demoCtx, U64_MOD]
  · rw [transfer_hook_tx_eq]
    rfl

end TransferHookProgram
